import Mathlib

/-!
Verification development for the sklvq LVQ training core
(adaptive squared NaN-euclidean distance, generalized learning objective,
steepest gradient descent solver, strategy registry).

Modelling conventions (shallow embedding):
* scalars are rationals `ℚ`; a possibly-missing (NaN) data entry is `Option ℚ`
  with `none` playing the role of `NaN` (arithmetic on data propagates `none`,
  and the source's `difference[np.isnan(difference)] = 0` masking becomes
  replacing `none` by `0`);
* numpy arrays are total functions `ℕ → ℚ` / `ℕ → ℕ → ℚ` together with
  explicit size parameters; sums over an axis are `Finset.range` sums;
* `np.inf` produced by `np.where(indices, distances, np.inf)` is modelled by
  `WithTop ℚ` with `⊤` for `+∞`;
* model collaborators that are not part of the core source
  (`to_variables`/`to_params`, `add_partial_gradient`, the relative-distance
  discriminant, `_import_class_from_string`) are modelled from the spec and
  marked as such in their doc comments.
-/

namespace Sklvq

/-! ## Distances: sklvq/distances/adaptive_squared_nan_euclidean.py -/

/-- The masked difference `x - w` of a sample against a prototype:
in the source, `difference = sample - prototype` (NaN-propagating) followed by
`difference[np.isnan(difference)] = 0`.  A `none` (NaN) sample entry therefore
contributes a difference of `0`. -/
def maskedDifference (x : ℕ → Option ℚ) (w : ℕ → ℚ) (i : ℕ) : ℚ :=
  match x i with
  | none => 0
  | some v => v - w i

/-- The masked difference `-2 * (x - w)` used by `_prototype_gradient`:
`difference = -2 * (data - prototype)` followed by NaN masking.  `-2 * NaN` is
NaN, so a `none` entry again becomes `0`. -/
def maskedDifferenceNeg2 (x : ℕ → Option ℚ) (w : ℕ → ℚ) (i : ℕ) : ℚ :=
  match x i with
  | none => 0
  | some v => -2 * (v - w i)

/-- `Λ = Ωᵀ Ω` (`model.omega_.T.dot(model.omega_)`, resp. `np.dot(omega.T, omega)`):
entry `(i, k)` is `∑ r, Ω[r, i] * Ω[r, k]` where `Ω` has `o` rows. -/
def lambdaMatrix (o : ℕ) (omega : ℕ → ℕ → ℚ) (i k : ℕ) : ℚ :=
  ∑ r ∈ Finset.range o, omega r i * omega r k

/-- `_adaptive_squared_nan_euclidean(sample, prototype, lambda_matrix)`:
`difference = sample - prototype`, NaN entries masked to `0`, then
`difference.dot(lambda_matrix).dot(difference)` over `d` features. -/
def adaptive_squared_nan_euclidean (d : ℕ) (x : ℕ → Option ℚ) (w : ℕ → ℚ)
    (lam : ℕ → ℕ → ℚ) : ℚ :=
  ∑ k ∈ Finset.range d,
    (∑ i ∈ Finset.range d, maskedDifference x w i * lam i k) * maskedDifference x w k

namespace AdaptiveSquaredNanEuclidean

/-- `AdaptiveSquaredNanEuclidean.__call__(data, model)`:
`pairwise_distances(data, model.prototypes_, metric=_adaptive_squared_nan_euclidean,
force_all_finite="allow-nan") ** 2`.  `pairwise_distances` with a callable
metric returns the raw metric values `metric(data[j], prototypes[p])`, and the
trailing `** 2` squares them elementwise; entry `(j, p)` of the returned matrix
is therefore the square of the already-squared metric value. -/
def call (d o : ℕ) (data : ℕ → ℕ → Option ℚ) (prototypes omega : ℕ → ℕ → ℚ)
    (j p : ℕ) : ℚ :=
  (adaptive_squared_nan_euclidean d (data j) (prototypes p) (lambdaMatrix o omega)) ^ 2

end AdaptiveSquaredNanEuclidean

/-- `_prototype_gradient(data, prototype, omega)` (rowwise):
`difference = -2 * (data - prototype)` masked, then
`np.einsum("ji,ik->jk", difference, np.dot(omega.T, omega))`; entry `k` of the
row for sample `x` is `∑ i, difference[i] * Λ[i, k]`. -/
def prototype_gradient (d o : ℕ) (x : ℕ → Option ℚ) (w : ℕ → ℚ)
    (omega : ℕ → ℕ → ℚ) (k : ℕ) : ℚ :=
  ∑ i ∈ Finset.range d, maskedDifferenceNeg2 x w i * lambdaMatrix o omega i k

/-- `_omega_gradient(data, prototype, omega)` (rowwise):
`difference = data - prototype` masked, `scaled_omega = omega.dot(difference.T)`,
then `np.einsum("ij,jk->jik", scaled_omega, 2 * difference)`; entry `(r, k)` of
the row for sample `x` is `(Ω (x - w))[r] * (2 * (x - w)[k])`. -/
def omega_gradient (d : ℕ) (x : ℕ → Option ℚ) (w : ℕ → ℚ)
    (omega : ℕ → ℕ → ℚ) (r k : ℕ) : ℚ :=
  (∑ l ∈ Finset.range d, omega r l * maskedDifference x w l) *
    (2 * maskedDifference x w k)

namespace AdaptiveSquaredNanEuclidean

/-- `AdaptiveSquaredNanEuclidean.gradient(data, model, i_prototype)`:
`distance_gradient = np.zeros((num_samples, prototypes.size + omega.size))`,
the slice `[ip * d, (ip + 1) * d)` is filled with `_prototype_gradient` and the
trailing `omega.size = o * d` columns with `_omega_gradient` reshaped row-major;
entry `(j, c)` of the result (0 outside the buffer's extent). -/
def gradient (d Pn o : ℕ) (data : ℕ → ℕ → Option ℚ)
    (prototypes omega : ℕ → ℕ → ℚ) (ip : ℕ) (j c : ℕ) : ℚ :=
  if c < Pn * d then
    if c / d = ip then
      prototype_gradient d o (data j) (prototypes ip) omega (c % d)
    else 0
  else if c < Pn * d + o * d then
    omega_gradient d (data j) (prototypes ip) omega ((c - Pn * d) / d) ((c - Pn * d) % d)
  else 0

end AdaptiveSquaredNanEuclidean

/-! ### Concrete inputs witnessing the double-squaring in `__call__` -/

/-- A single 1-feature sample with value `2`. -/
def dataC1 : ℕ → ℕ → Option ℚ := fun _ _ => some 2

/-- A single 1-feature prototype at `0`. -/
def prototypesC1 : ℕ → ℕ → ℚ := fun _ _ => 0

/-- A `1 × 1` relevance matrix `Ω = [[1]]`, so `Λ = [[1]]`. -/
def omegaC1 : ℕ → ℕ → ℚ := fun _ _ => 1

/-- Claim C1: the spec says `__call__(data, model)` returns, per sample and
prototype, the adaptive squared euclidean distance `(x - w)ᵀ Λ (x - w)`
(which the source's own docstring also states).  The code instead squares the
`pairwise_distances` result whose callable metric already returns
`(x - w)ᵀ Λ (x - w)`: with `x = [2]`, `w = [0]`, `Ω = [[1]]` the metric value
is `4` but `__call__` returns `16 = 4 ^ 2`.  This contradicts the method's
docstring and the method `gradient` (which differentiates the un-squared
form), so the claim is right and the code is wrong. -/
theorem C1_call_squares_the_already_squared_metric :
    AdaptiveSquaredNanEuclidean.call 1 1 dataC1 prototypesC1 omegaC1 0 0 = 16 ∧
      adaptive_squared_nan_euclidean 1 (dataC1 0) (prototypesC1 0)
        (lambdaMatrix 1 omegaC1) = 4 := by
  constructor <;>
    norm_num [AdaptiveSquaredNanEuclidean.call, adaptive_squared_nan_euclidean,
      maskedDifference, lambdaMatrix, dataC1, prototypesC1, omegaC1]

/-! ### Flat layout arithmetic for the variable vector `[P row-major ++ Ω row-major]` -/

lemma flat_index_lt {p f Pn d : ℕ} (hp : p < Pn) (hf : f < d) : p * d + f < Pn * d := by
  calc p * d + f < p * d + d := Nat.add_lt_add_left hf _
    _ = (p + 1) * d := by ring
    _ ≤ Pn * d := Nat.mul_le_mul_right d hp

lemma flat_index_div {p f d : ℕ} (hf : f < d) : (p * d + f) / d = p := by
  rw [add_comm, Nat.add_mul_div_right _ _ (lt_of_le_of_lt (Nat.zero_le f) hf),
    Nat.div_eq_of_lt hf, zero_add]

lemma flat_index_mod {p f d : ℕ} (hf : f < d) : (p * d + f) % d = f := by
  rw [add_comm, Nat.add_mul_mod_self_right, Nat.mod_eq_of_lt hf]

lemma maskedDifferenceNeg2_eq (x : ℕ → Option ℚ) (w : ℕ → ℚ) (i : ℕ) :
    maskedDifferenceNeg2 x w i = -2 * maskedDifference x w i := by
  cases hx : x i <;> simp [maskedDifference, maskedDifferenceNeg2, hx]

lemma lambdaMatrix_symm (o : ℕ) (omega : ℕ → ℕ → ℚ) (i k : ℕ) :
    lambdaMatrix o omega i k = lambdaMatrix o omega k i :=
  Finset.sum_congr rfl fun _ _ => mul_comm _ _

/-- `_prototype_gradient`'s row equals `-2 Λ (x - w)` (with `Λ = ΩᵀΩ` symmetric
and the NaN-masked difference). -/
lemma prototype_gradient_eq (d o : ℕ) (x : ℕ → Option ℚ) (w : ℕ → ℚ)
    (omega : ℕ → ℕ → ℚ) (k : ℕ) :
    prototype_gradient d o x w omega k =
      -2 * ∑ i ∈ Finset.range d, lambdaMatrix o omega k i * maskedDifference x w i := by
  unfold prototype_gradient
  rw [Finset.mul_sum]
  refine Finset.sum_congr rfl fun i _ => ?_
  rw [maskedDifferenceNeg2_eq, lambdaMatrix_symm o omega i k]
  ring

/-- Claim C4: `AdaptiveSquaredNanEuclidean.gradient(data, model, ip)` is, per
sample row, zero on every other prototype's column slice, equals
`-2 Λ (x - w_ip)` (NaN differences zeroed, `Λ = ΩᵀΩ`) on prototype `ip`'s
slice, holds the Ω-Jacobian `2 (Ω (x - w_ip))[r] * (x - w_ip)[k]` at flat
position `Pn * d + (r * d + k)` of the trailing `omega.size` columns, and is
zero beyond the buffer's extent `Pn * d + o * d` (its allocated shape). -/
theorem C4_gradient_slices (d Pn o : ℕ) (data : ℕ → ℕ → Option ℚ)
    (prototypes omega : ℕ → ℕ → ℚ) (ip : ℕ) (hip : ip < Pn) :
    (∀ j q f, q < Pn → q ≠ ip → f < d →
      AdaptiveSquaredNanEuclidean.gradient d Pn o data prototypes omega ip j (q * d + f) = 0) ∧
    (∀ j f, f < d →
      AdaptiveSquaredNanEuclidean.gradient d Pn o data prototypes omega ip j (ip * d + f) =
        -2 * ∑ i ∈ Finset.range d,
          lambdaMatrix o omega f i * maskedDifference (data j) (prototypes ip) i) ∧
    (∀ j r k, r < o → k < d →
      AdaptiveSquaredNanEuclidean.gradient d Pn o data prototypes omega ip j
          (Pn * d + (r * d + k)) =
        2 * (∑ l ∈ Finset.range d, omega r l * maskedDifference (data j) (prototypes ip) l) *
          maskedDifference (data j) (prototypes ip) k) ∧
    (∀ j c, Pn * d + o * d ≤ c →
      AdaptiveSquaredNanEuclidean.gradient d Pn o data prototypes omega ip j c = 0) := by
  refine ⟨fun j q f hq hqip hf => ?_, fun j f hf => ?_, fun j r k hr hk => ?_,
    fun j c hc => ?_⟩
  · unfold AdaptiveSquaredNanEuclidean.gradient
    rw [if_pos (flat_index_lt hq hf), if_neg]
    rw [flat_index_div hf]
    exact hqip
  · unfold AdaptiveSquaredNanEuclidean.gradient
    rw [if_pos (flat_index_lt hip hf), if_pos (flat_index_div hf), flat_index_mod hf,
      prototype_gradient_eq]
  · have hlt : r * d + k < o * d := flat_index_lt hr hk
    unfold AdaptiveSquaredNanEuclidean.gradient
    rw [if_neg (Nat.not_lt.mpr (Nat.le_add_right _ _)),
      if_pos (Nat.add_lt_add_left hlt _), Nat.add_sub_cancel_left,
      flat_index_div hk, flat_index_mod hk]
    unfold omega_gradient
    ring
  · unfold AdaptiveSquaredNanEuclidean.gradient
    rw [if_neg, if_neg]
    · exact Nat.not_lt.mpr hc
    · exact Nat.not_lt.mpr (le_trans (Nat.le_add_right _ _) hc)

/-- Witness for C4 at `d = 1`, `Pn = 2`, `o = 1`, `ip = 0`, on the concrete
inputs `x = [2]`, `w_0 = w_1 = [0]`, `Ω = [[1]]`: the other prototype's column
is `0`, prototype 0's column is `-2 Λ (x - w_0) = -4`, the Ω column is
`2 (Ω (x - w_0)) (x - w_0) = 8`, and column 3 (beyond the extent) is `0`. -/
theorem C4_gradient_slices_witness :
    AdaptiveSquaredNanEuclidean.gradient 1 2 1 dataC1 prototypesC1 omegaC1 0 0 1 = 0 ∧
    AdaptiveSquaredNanEuclidean.gradient 1 2 1 dataC1 prototypesC1 omegaC1 0 0 0 = -4 ∧
    AdaptiveSquaredNanEuclidean.gradient 1 2 1 dataC1 prototypesC1 omegaC1 0 0 2 = 8 ∧
    AdaptiveSquaredNanEuclidean.gradient 1 2 1 dataC1 prototypesC1 omegaC1 0 0 3 = 0 := by
  have h := C4_gradient_slices 1 2 1 dataC1 prototypesC1 omegaC1 0 (by norm_num)
  refine ⟨?_, ?_, ?_, ?_⟩
  · have h1 := h.1 0 1 0 (by norm_num) (by norm_num) (by norm_num)
    simpa using h1
  · have h2 := h.2.1 0 0 (by norm_num)
    simp [lambdaMatrix, maskedDifference, dataC1, prototypesC1, omegaC1] at h2
    rw [h2]
    norm_num
  · have h3 := h.2.2.1 0 0 0 (by norm_num) (by norm_num)
    simp [maskedDifference, dataC1, prototypesC1, omegaC1] at h3
    rw [h3]
    norm_num
  · exact h.2.2.2 0 3 (by norm_num)

/-! ### NaN features contribute zero (claim C5) -/

/-- `data` with the single entry `(j, t)` replaced by the (non-NaN) value `v`. -/
def setFeature (data : ℕ → ℕ → Option ℚ) (j t : ℕ) (v : ℚ) : ℕ → ℕ → Option ℚ :=
  fun j' i => if j' = j ∧ i = t then some v else data j' i

lemma setFeature_row (data : ℕ → ℕ → Option ℚ) (j t : ℕ) (v : ℚ) :
    setFeature data j t v j = fun i => if i = t then some v else data j i := by
  funext i
  simp [setFeature]

lemma maskedDifference_subst (x : ℕ → Option ℚ) (w : ℕ → ℚ) (t : ℕ)
    (hx : x t = none) (i : ℕ) :
    maskedDifference (fun i' => if i' = t then some (w t) else x i') w i =
      maskedDifference x w i := by
  by_cases h : i = t
  · subst h
    simp [maskedDifference, hx]
  · simp [maskedDifference, h]

lemma maskedDifferenceNeg2_subst (x : ℕ → Option ℚ) (w : ℕ → ℚ) (t : ℕ)
    (hx : x t = none) (i : ℕ) :
    maskedDifferenceNeg2 (fun i' => if i' = t then some (w t) else x i') w i =
      maskedDifferenceNeg2 x w i := by
  rw [maskedDifferenceNeg2_eq, maskedDifferenceNeg2_eq, maskedDifference_subst x w t hx i]

lemma adaptive_metric_subst (d : ℕ) (x : ℕ → Option ℚ) (w : ℕ → ℚ)
    (lam : ℕ → ℕ → ℚ) (t : ℕ) (hx : x t = none) :
    adaptive_squared_nan_euclidean d (fun i => if i = t then some (w t) else x i) w lam =
      adaptive_squared_nan_euclidean d x w lam := by
  unfold adaptive_squared_nan_euclidean
  refine Finset.sum_congr rfl fun k _ => ?_
  rw [maskedDifference_subst x w t hx k]
  congr 1
  exact Finset.sum_congr rfl fun i _ => by rw [maskedDifference_subst x w t hx i]

lemma prototype_gradient_subst (d o : ℕ) (x : ℕ → Option ℚ) (w : ℕ → ℚ)
    (omega : ℕ → ℕ → ℚ) (t : ℕ) (hx : x t = none) (k : ℕ) :
    prototype_gradient d o (fun i' => if i' = t then some (w t) else x i') w omega k =
      prototype_gradient d o x w omega k := by
  unfold prototype_gradient
  exact Finset.sum_congr rfl fun i _ => by rw [maskedDifferenceNeg2_subst x w t hx i]

lemma omega_gradient_subst (d : ℕ) (x : ℕ → Option ℚ) (w : ℕ → ℚ)
    (omega : ℕ → ℕ → ℚ) (t : ℕ) (hx : x t = none) (r k : ℕ) :
    omega_gradient d (fun i' => if i' = t then some (w t) else x i') w omega r k =
      omega_gradient d x w omega r k := by
  unfold omega_gradient
  rw [maskedDifference_subst x w t hx k]
  congr 1
  exact Finset.sum_congr rfl fun l _ => by rw [maskedDifference_subst x w t hx l]

/-- Claim C5: a NaN feature contributes exactly zero to the distance and the
distance gradient.  Replacing a NaN feature of sample `j` by the corresponding
prototype's value leaves the `__call__` distance entry and the `gradient` row
unchanged, and a fully-NaN sample has distance 0 to every prototype (the
embedding is total: no exception is raised). -/
theorem C5_nan_feature_contributes_zero (d Pn o : ℕ) (data : ℕ → ℕ → Option ℚ)
    (prototypes omega : ℕ → ℕ → ℚ) (j t : ℕ) (hnan : data j t = none) :
    (∀ p, AdaptiveSquaredNanEuclidean.call d o
        (setFeature data j t (prototypes p t)) prototypes omega j p =
      AdaptiveSquaredNanEuclidean.call d o data prototypes omega j p) ∧
    (∀ p, (∀ i, i < d → data j i = none) →
      AdaptiveSquaredNanEuclidean.call d o data prototypes omega j p = 0) ∧
    (∀ ip c, AdaptiveSquaredNanEuclidean.gradient d Pn o
        (setFeature data j t (prototypes ip t)) prototypes omega ip j c =
      AdaptiveSquaredNanEuclidean.gradient d Pn o data prototypes omega ip j c) := by
  refine ⟨fun p => ?_, fun p hall => ?_, fun ip c => ?_⟩
  · unfold AdaptiveSquaredNanEuclidean.call
    rw [setFeature_row, adaptive_metric_subst d (data j) (prototypes p) _ t hnan]
  · unfold AdaptiveSquaredNanEuclidean.call
    have hmet : adaptive_squared_nan_euclidean d (data j) (prototypes p)
        (lambdaMatrix o omega) = 0 := by
      unfold adaptive_squared_nan_euclidean
      refine Finset.sum_eq_zero fun k hk => ?_
      have : maskedDifference (data j) (prototypes p) k = 0 := by
        simp [maskedDifference, hall k (Finset.mem_range.mp hk)]
      rw [this, mul_zero]
    rw [hmet]
    norm_num
  · unfold AdaptiveSquaredNanEuclidean.gradient
    rw [setFeature_row]
    by_cases h1 : c < Pn * d
    · rw [if_pos h1, if_pos h1]
      by_cases h2 : c / d = ip
      · rw [if_pos h2, if_pos h2,
          prototype_gradient_subst d o (data j) (prototypes ip) omega t hnan]
      · rw [if_neg h2, if_neg h2]
    · rw [if_neg h1, if_neg h1]
      by_cases h2 : c < Pn * d + o * d
      · rw [if_pos h2, if_pos h2,
          omega_gradient_subst d (data j) (prototypes ip) omega t hnan]
      · rw [if_neg h2, if_neg h2]

/-- A single 1-feature sample that is entirely NaN. -/
def dataNaN : ℕ → ℕ → Option ℚ := fun _ _ => none

/-- Witness for C5 at `d = 1`, `Pn = 1`, `o = 1` on the fully-NaN sample:
substitution of the NaN feature by the prototype value changes neither
`__call__` nor `gradient`, and the fully-NaN sample has distance 0. -/
theorem C5_nan_feature_contributes_zero_witness :
    AdaptiveSquaredNanEuclidean.call 1 1 (setFeature dataNaN 0 0 (prototypesC1 0 0))
        prototypesC1 omegaC1 0 0 =
      AdaptiveSquaredNanEuclidean.call 1 1 dataNaN prototypesC1 omegaC1 0 0 ∧
    AdaptiveSquaredNanEuclidean.call 1 1 dataNaN prototypesC1 omegaC1 0 0 = 0 ∧
    AdaptiveSquaredNanEuclidean.gradient 1 1 1 (setFeature dataNaN 0 0 (prototypesC1 0 0))
        prototypesC1 omegaC1 0 0 0 =
      AdaptiveSquaredNanEuclidean.gradient 1 1 1 dataNaN prototypesC1 omegaC1 0 0 0 := by
  have h := C5_nan_feature_contributes_zero 1 1 1 dataNaN prototypesC1 omegaC1 0 0 rfl
  exact ⟨h.1 0, h.2.1 0 (fun i _ => rfl), h.2.2 0 0⟩

/-! ## Objective: sklvq/objectives/_generalized_learning_objective.py -/

/-- The model collaborator as seen by the objective: prototype matrix
(`Pn × d`), prototype labels, relevance matrix (`o × d`).  Its coupled
distance strategy is `AdaptiveSquaredNanEuclidean`. -/
structure LVQModel where
  d : ℕ
  Pn : ℕ
  o : ℕ
  prototypes : ℕ → ℕ → ℚ
  protoLabels : ℕ → ℕ
  omega : ℕ → ℕ → ℚ

/-- `np.where(indices, distances, np.inf)` inside `_find_min`, entrywise:
`+∞` is `⊤` of `WithTop ℚ`. -/
def distTemp (indices : ℕ → ℕ → Bool) (distances : ℕ → ℕ → ℚ) (j p : ℕ) : WithTop ℚ :=
  if indices j p then (distances j p : WithTop ℚ) else ⊤

/-- `dist_temp.min(axis=1)`: the row minimum over the `Pn` prototype columns. -/
def rowMin (Pn : ℕ) (indices : ℕ → ℕ → Bool) (distances : ℕ → ℕ → ℚ) (j : ℕ) :
    WithTop ℚ :=
  (Finset.range Pn).inf (distTemp indices distances j)

/-- `dist_temp.argmin(axis=1)`: the first column index attaining the row
minimum (`np.argmin` returns the first occurrence). -/
def rowArgmin (Pn : ℕ) (indices : ℕ → ℕ → Bool) (distances : ℕ → ℕ → ℚ) (j : ℕ) : ℕ :=
  ((List.range Pn).find? fun p =>
    decide (distTemp indices distances j p = rowMin Pn indices distances j)).getD 0

/-- `_find_min(indices, distances)`: `(dist_temp.min(axis=1), dist_temp.argmin(axis=1))`
with `dist_temp = np.where(indices, distances, np.inf)`. -/
def find_min (Pn : ℕ) (indices : ℕ → ℕ → Bool) (distances : ℕ → ℕ → ℚ) :
    (ℕ → WithTop ℚ) × (ℕ → ℕ) :=
  (rowMin Pn indices distances, rowArgmin Pn indices distances)

/-- `ii_same` of `_compute_distance`: sample `j` has the same label as
prototype `p`. -/
def ii_same (labels protoLabels : ℕ → ℕ) (j p : ℕ) : Bool :=
  labels j == protoLabels p

/-- `ii_diff = ~ii_same`. -/
def ii_diff (labels protoLabels : ℕ → ℕ) (j p : ℕ) : Bool :=
  !(ii_same labels protoLabels j p)

/-- `model._distance(data, model)`: the full distance matrix computed by the
coupled `AdaptiveSquaredNanEuclidean.__call__`. -/
def modelDistances (M : LVQModel) (data : ℕ → ℕ → Option ℚ) : ℕ → ℕ → ℚ :=
  AdaptiveSquaredNanEuclidean.call M.d M.o data M.prototypes M.omega

/-- `dist_same` of `_compute_distance`. -/
def dist_same (M : LVQModel) (data : ℕ → ℕ → Option ℚ) (labels : ℕ → ℕ) :
    ℕ → WithTop ℚ :=
  (find_min M.Pn (ii_same labels M.protoLabels) (modelDistances M data)).1

/-- `i_dist_same` of `_compute_distance`. -/
def i_dist_same (M : LVQModel) (data : ℕ → ℕ → Option ℚ) (labels : ℕ → ℕ) : ℕ → ℕ :=
  (find_min M.Pn (ii_same labels M.protoLabels) (modelDistances M data)).2

/-- `dist_diff` of `_compute_distance`. -/
def dist_diff (M : LVQModel) (data : ℕ → ℕ → Option ℚ) (labels : ℕ → ℕ) :
    ℕ → WithTop ℚ :=
  (find_min M.Pn (ii_diff labels M.protoLabels) (modelDistances M data)).1

/-- `i_dist_diff` of `_compute_distance`. -/
def i_dist_diff (M : LVQModel) (data : ℕ → ℕ → Option ℚ) (labels : ℕ → ℕ) : ℕ → ℕ :=
  (find_min M.Pn (ii_diff labels M.protoLabels) (modelDistances M data)).2

namespace GeneralizedLearningObjective

/-- `GeneralizedLearningObjective.__call__(model, data, labels)`:
`np.sum(activation(discriminant(dist_same, dist_diff)))` over the `n` samples;
the activation `actF` and discriminant `discF` are the injected strategy
objects. -/
def evaluate (actF : ℚ → ℚ) (discF : WithTop ℚ → WithTop ℚ → ℚ) (M : LVQModel)
    (n : ℕ) (data : ℕ → ℕ → Option ℚ) (labels : ℕ → ℕ) : ℚ :=
  ∑ j ∈ Finset.range n,
    actF (discF (dist_same M data labels j) (dist_diff M data labels j))

end GeneralizedLearningObjective

/-- Modelled from the spec: `model.add_partial_gradient(buffer, contribution,
i_prototype)` (the model class is not under `src/`).  Per spec §4.5/§6 it
accumulates the contribution into the shared gradient buffer; the contribution
produced by the distance strategy's `gradient` already spans the full variable
layout (the prototype's slice at its offset, the Ω slice at the trailing
offset, zeros elsewhere), so accumulation is elementwise addition. -/
def addPartGradient (buffer contrib : ℕ → ℚ) : ℕ → ℚ :=
  fun c => buffer c + contrib c

namespace GeneralizedLearningObjective

/-- The same-branch contribution for prototype `ip`:
`(activation.gradient(score[mask]) * discriminant.gradient(d_same[mask],
d_diff[mask], True)).dot(distance.gradient(data[mask], model, ip))`, the
boolean mask being `ii_winner_same = (i_dist_same == ip)`.  The distance
gradient is computed row by row, so restricting the data rows to the mask and
dotting equals summing over the masked sample indices. -/
def sameContribution (actGradF : ℚ → ℚ) (discF : WithTop ℚ → WithTop ℚ → ℚ)
    (discGradF : WithTop ℚ → WithTop ℚ → Bool → ℚ) (M : LVQModel) (n : ℕ)
    (data : ℕ → ℕ → Option ℚ) (labels : ℕ → ℕ) (ip : ℕ) : ℕ → ℚ :=
  fun c => ∑ j ∈ (Finset.range n).filter (fun j => i_dist_same M data labels j = ip),
    (actGradF (discF (dist_same M data labels j) (dist_diff M data labels j)) *
        discGradF (dist_same M data labels j) (dist_diff M data labels j) true) *
      AdaptiveSquaredNanEuclidean.gradient M.d M.Pn M.o data M.prototypes M.omega ip j c

/-- The diff-branch contribution for prototype `ip` (mask
`ii_winner_diff = (i_dist_diff == ip)`, discriminant gradient on the
diff branch). -/
def diffContribution (actGradF : ℚ → ℚ) (discF : WithTop ℚ → WithTop ℚ → ℚ)
    (discGradF : WithTop ℚ → WithTop ℚ → Bool → ℚ) (M : LVQModel) (n : ℕ)
    (data : ℕ → ℕ → Option ℚ) (labels : ℕ → ℕ) (ip : ℕ) : ℕ → ℚ :=
  fun c => ∑ j ∈ (Finset.range n).filter (fun j => i_dist_diff M data labels j = ip),
    (actGradF (discF (dist_same M data labels j) (dist_diff M data labels j)) *
        discGradF (dist_same M data labels j) (dist_diff M data labels j) false) *
      AdaptiveSquaredNanEuclidean.gradient M.d M.Pn M.o data M.prototypes M.omega ip j c

/-- `if any(ii_winner_same): model.add_partial_gradient(buffer, ..., ip)`. -/
def sameStep (actGradF : ℚ → ℚ) (discF : WithTop ℚ → WithTop ℚ → ℚ)
    (discGradF : WithTop ℚ → WithTop ℚ → Bool → ℚ) (M : LVQModel) (n : ℕ)
    (data : ℕ → ℕ → Option ℚ) (labels : ℕ → ℕ) (buffer : ℕ → ℚ) (ip : ℕ) : ℕ → ℚ :=
  if ∃ j ∈ Finset.range n, i_dist_same M data labels j = ip then
    addPartGradient buffer (sameContribution actGradF discF discGradF M n data labels ip)
  else buffer

/-- `if any(ii_winner_diff): model.add_partial_gradient(buffer, ..., ip)`. -/
def diffStep (actGradF : ℚ → ℚ) (discF : WithTop ℚ → WithTop ℚ → ℚ)
    (discGradF : WithTop ℚ → WithTop ℚ → Bool → ℚ) (M : LVQModel) (n : ℕ)
    (data : ℕ → ℕ → Option ℚ) (labels : ℕ → ℕ) (buffer : ℕ → ℚ) (ip : ℕ) : ℕ → ℚ :=
  if ∃ j ∈ Finset.range n, i_dist_diff M data labels j = ip then
    addPartGradient buffer (diffContribution actGradF discF discGradF M n data labels ip)
  else buffer

/-- One iteration of the `for i_prototype in range(0, ...)` loop of
`GeneralizedLearningObjective.gradient`: the same-branch update followed by
the diff-branch update. -/
def gradientStep (actGradF : ℚ → ℚ) (discF : WithTop ℚ → WithTop ℚ → ℚ)
    (discGradF : WithTop ℚ → WithTop ℚ → Bool → ℚ) (M : LVQModel) (n : ℕ)
    (data : ℕ → ℕ → Option ℚ) (labels : ℕ → ℕ) (buffer : ℕ → ℚ) (ip : ℕ) : ℕ → ℚ :=
  diffStep actGradF discF discGradF M n data labels
    (sameStep actGradF discF discGradF M n data labels buffer ip) ip

/-- `GeneralizedLearningObjective.gradient(model, data, labels)`:
`gradient_buffer = np.zeros(...)`, then the prototype loop accumulates both
branch contributions; returns the buffer. -/
def gradient (actGradF : ℚ → ℚ) (discF : WithTop ℚ → WithTop ℚ → ℚ)
    (discGradF : WithTop ℚ → WithTop ℚ → Bool → ℚ) (M : LVQModel) (n : ℕ)
    (data : ℕ → ℕ → Option ℚ) (labels : ℕ → ℕ) : ℕ → ℚ :=
  (List.range M.Pn).foldl (gradientStep actGradF discF discGradF M n data labels)
    (fun _ => 0)

end GeneralizedLearningObjective

/-! ### Claim C10: empty label category in `_find_min` -/

lemma rowMin_all_top (Pn : ℕ) (indices : ℕ → ℕ → Bool) (distances : ℕ → ℕ → ℚ)
    (j : ℕ) (h : ∀ p, p < Pn → indices j p = false) :
    rowMin Pn indices distances j = ⊤ := by
  refine le_antisymm le_top (Finset.le_inf fun p hp => ?_)
  unfold distTemp
  rw [h p (Finset.mem_range.mp hp)]
  simp

lemma rowArgmin_all_top (Pn : ℕ) (indices : ℕ → ℕ → Bool) (distances : ℕ → ℕ → ℚ)
    (j : ℕ) (hPn : 0 < Pn) (h : ∀ p, p < Pn → indices j p = false) :
    rowArgmin Pn indices distances j = 0 := by
  obtain ⟨k, rfl⟩ : ∃ k, Pn = k + 1 := ⟨Pn - 1, (Nat.succ_pred_eq_of_pos hPn).symm⟩
  unfold rowArgmin
  rw [List.range_succ_eq_map, List.find?_cons_of_pos]
  · rfl
  · have h0 : distTemp indices distances j 0 = ⊤ := by
      unfold distTemp
      rw [h 0 hPn]
      simp
    rw [rowMin_all_top _ _ _ _ h, h0]
    simp

/-- Claim C10: for a sample whose label matches no prototype label
(respectively: is shared by every prototype), the winner computation does not
fail: `_find_min` sees an all-`False` indicator row, `np.where` turns it into
all `+∞`, the min is `+∞` and the argmin is `0`; correspondingly
`dist_same`/`i_dist_same` (resp. `dist_diff`/`i_dist_diff`) of
`_compute_distance` are `+∞` and `0`, and the (total) `evaluate`/`gradient`
functions simply consume those values. -/
theorem C10_empty_label_category (M : LVQModel) (data : ℕ → ℕ → Option ℚ)
    (labels : ℕ → ℕ) (j : ℕ) (hPn : 0 < M.Pn) :
    (∀ indices : ℕ → ℕ → Bool, ∀ distances : ℕ → ℕ → ℚ,
      (∀ p, p < M.Pn → indices j p = false) →
        (find_min M.Pn indices distances).1 j = ⊤ ∧
          (find_min M.Pn indices distances).2 j = 0) ∧
    ((∀ p, p < M.Pn → M.protoLabels p ≠ labels j) →
      dist_same M data labels j = ⊤ ∧ i_dist_same M data labels j = 0) ∧
    ((∀ p, p < M.Pn → M.protoLabels p = labels j) →
      dist_diff M data labels j = ⊤ ∧ i_dist_diff M data labels j = 0) := by
  refine ⟨fun indices distances h => ⟨rowMin_all_top _ _ _ _ h,
      rowArgmin_all_top _ _ _ _ hPn h⟩, fun hno => ?_, fun hall => ?_⟩
  · have h : ∀ p, p < M.Pn → ii_same labels M.protoLabels j p = false := by
      intro p hp
      unfold ii_same
      exact beq_eq_false_iff_ne.mpr fun he => hno p hp he.symm
    exact ⟨rowMin_all_top _ _ _ _ h, rowArgmin_all_top _ _ _ _ hPn h⟩
  · have h : ∀ p, p < M.Pn → ii_diff labels M.protoLabels j p = false := by
      intro p hp
      unfold ii_diff ii_same
      rw [beq_iff_eq.mpr (hall p hp).symm]
      rfl
    exact ⟨rowMin_all_top _ _ _ _ h, rowArgmin_all_top _ _ _ _ hPn h⟩

/-- A one-prototype model (`d = 1`, `Pn = 1`, `o = 1`) whose prototype carries
label `1`. -/
def modelC10 : LVQModel :=
  ⟨1, 1, 1, prototypesC1, fun _ => 1, omegaC1⟩

/-- Witness for C10: with a single prototype labelled `1` and a sample
labelled `0`, the sample's same-winner distance is `+∞` and its same-winner
index is `0`. -/
theorem C10_empty_label_category_witness :
    dist_same modelC10 dataC1 (fun _ => 0) 0 = ⊤ ∧
      i_dist_same modelC10 dataC1 (fun _ => 0) 0 = 0 := by
  exact (C10_empty_label_category modelC10 dataC1 (fun _ => 0) 0
      (by norm_num [modelC10])).2.1
    (fun p _ => by norm_num [modelC10])

/-! ### Claim C3: untouched prototypes keep an all-zero gradient slice -/

lemma gradient_other_prototype_col (d Pn o : ℕ) (data : ℕ → ℕ → Option ℚ)
    (prototypes omega : ℕ → ℕ → ℚ) (ip j : ℕ) {q f : ℕ} (hq : q < Pn) (hf : f < d)
    (hqip : q ≠ ip) :
    AdaptiveSquaredNanEuclidean.gradient d Pn o data prototypes omega ip j (q * d + f) = 0 := by
  unfold AdaptiveSquaredNanEuclidean.gradient
  rw [if_pos (flat_index_lt hq hf), if_neg]
  rw [flat_index_div hf]
  exact hqip

lemma if_addPart_col (cond : Prop) [Decidable cond] (buffer contrib : ℕ → ℚ) (c : ℕ)
    (hz : cond → contrib c = 0) :
    (if cond then addPartGradient buffer contrib else buffer) c = buffer c := by
  by_cases h : cond
  · rw [if_pos h]
    unfold addPartGradient
    rw [hz h, add_zero]
  · rw [if_neg h]

lemma foldl_preserve {σ γ : Type} (Q : σ → Prop) (step : σ → γ → σ)
    (hstep : ∀ s x, Q s → Q (step s x)) :
    ∀ (l : List γ) (s : σ), Q s → Q (l.foldl step s) := by
  intro l
  induction l with
  | nil => exact fun s hs => hs
  | cons x xs ih => exact fun s hs => ih (step s x) (hstep s x hs)

/-- Claim C3: after one `GeneralizedLearningObjective.gradient` call, a
prototype `p` that is no sample's same-winner and no sample's diff-winner in
the batch has an exactly-zero slice at its offset in the returned gradient
buffer (for any activation/discriminant strategies). -/
theorem C3_untouched_prototype_slice_zero (actGradF : ℚ → ℚ)
    (discF : WithTop ℚ → WithTop ℚ → ℚ) (discGradF : WithTop ℚ → WithTop ℚ → Bool → ℚ)
    (M : LVQModel) (n : ℕ) (data : ℕ → ℕ → Option ℚ) (labels : ℕ → ℕ) (p : ℕ)
    (hp : p < M.Pn)
    (hw : ∀ j, j < n →
      i_dist_same M data labels j ≠ p ∧ i_dist_diff M data labels j ≠ p) :
    ∀ f, f < M.d →
      GeneralizedLearningObjective.gradient actGradF discF discGradF M n data labels
        (p * M.d + f) = 0 := by
  refine foldl_preserve
    (fun buffer => ∀ f, f < M.d → buffer (p * M.d + f) = 0)
    (GeneralizedLearningObjective.gradientStep actGradF discF discGradF M n data labels)
    ?_ (List.range M.Pn) (fun _ => 0) (fun _ _ => rfl)
  intro s ip hQ f hf
  have hsame : GeneralizedLearningObjective.sameStep actGradF discF discGradF M n data
      labels s ip (p * M.d + f) = s (p * M.d + f) := by
    unfold GeneralizedLearningObjective.sameStep
    refine if_addPart_col _ _ _ _ fun hcond => ?_
    by_cases hip : ip = p
    · exfalso
      obtain ⟨j, hj, hje⟩ := hcond
      exact (hw j (Finset.mem_range.mp hj)).1 (hip ▸ hje)
    · unfold GeneralizedLearningObjective.sameContribution
      refine Finset.sum_eq_zero fun j _ => ?_
      rw [gradient_other_prototype_col M.d M.Pn M.o data M.prototypes M.omega ip j
        hp hf (fun hpe => hip hpe.symm), mul_zero]
  have hdiff : GeneralizedLearningObjective.gradientStep actGradF discF discGradF M n
      data labels s ip (p * M.d + f) =
      GeneralizedLearningObjective.sameStep actGradF discF discGradF M n data labels s ip
        (p * M.d + f) := by
    unfold GeneralizedLearningObjective.gradientStep GeneralizedLearningObjective.diffStep
    refine if_addPart_col _ _ _ _ fun hcond => ?_
    by_cases hip : ip = p
    · exfalso
      obtain ⟨j, hj, hje⟩ := hcond
      exact (hw j (Finset.mem_range.mp hj)).2 (hip ▸ hje)
    · unfold GeneralizedLearningObjective.diffContribution
      refine Finset.sum_eq_zero fun j _ => ?_
      rw [gradient_other_prototype_col M.d M.Pn M.o data M.prototypes M.omega ip j
        hp hf (fun hpe => hip hpe.symm), mul_zero]
  rw [hdiff, hsame]
  exact hQ f hf

/-! Concrete instance for the C3 witness: one sample `x = [2]` with label `0`,
two prototypes `w_0 = [0]`, `w_1 = [5]` both labelled `1`, `Ω = [[1]]`.  The
sample's same-winner index is `0` (no same-label prototype: all-`+∞` row) and
its diff-winner index is `0` (`w_0` is nearer), so prototype `1` is untouched. -/

/-- Two 1-feature prototypes `[0]` and `[5]`, both labelled `1`. -/
def modelC3 : LVQModel :=
  ⟨1, 2, 1, fun p _ => if p = 0 then 0 else 5, fun _ => 1, omegaC1⟩

/-- All samples labelled `0`. -/
def labelsC3 : ℕ → ℕ := fun _ => 0

lemma mdC3_0 : modelDistances modelC3 dataC1 0 0 = 16 := by
  norm_num [modelDistances, AdaptiveSquaredNanEuclidean.call,
    adaptive_squared_nan_euclidean, maskedDifference, lambdaMatrix, modelC3, dataC1,
    omegaC1]

lemma mdC3_1 : modelDistances modelC3 dataC1 0 1 = 81 := by
  norm_num [modelDistances, AdaptiveSquaredNanEuclidean.call,
    adaptive_squared_nan_euclidean, maskedDifference, lambdaMatrix, modelC3, dataC1,
    omegaC1]

lemma distTempC3_0 : distTemp (ii_diff labelsC3 modelC3.protoLabels)
    (modelDistances modelC3 dataC1) 0 0 = ((16 : ℚ) : WithTop ℚ) := by
  unfold distTemp
  have hb : ii_diff labelsC3 modelC3.protoLabels 0 0 = true := rfl
  rw [hb, if_pos rfl, mdC3_0]

lemma distTempC3_1 : distTemp (ii_diff labelsC3 modelC3.protoLabels)
    (modelDistances modelC3 dataC1) 0 1 = ((81 : ℚ) : WithTop ℚ) := by
  unfold distTemp
  have hb : ii_diff labelsC3 modelC3.protoLabels 0 1 = true := rfl
  rw [hb, if_pos rfl, mdC3_1]

lemma rowMinC3 : rowMin 2 (ii_diff labelsC3 modelC3.protoLabels)
    (modelDistances modelC3 dataC1) 0 = ((16 : ℚ) : WithTop ℚ) := by
  unfold rowMin
  rw [show (2 : ℕ) = 1 + 1 from rfl, Finset.range_succ, Finset.inf_insert,
    Finset.range_succ, Finset.inf_insert, Finset.range_zero, Finset.inf_empty,
    distTempC3_0, distTempC3_1, inf_top_eq, ← WithTop.coe_inf]
  norm_num [inf_eq_min, min_def]

lemma i_dist_same_C3 : i_dist_same modelC3 dataC1 labelsC3 0 = 0 := by
  show rowArgmin modelC3.Pn (ii_same labelsC3 modelC3.protoLabels)
    (modelDistances modelC3 dataC1) 0 = 0
  apply rowArgmin_all_top
  · norm_num [modelC3]
  · exact fun p _ => rfl

lemma i_dist_diff_C3 : i_dist_diff modelC3 dataC1 labelsC3 0 = 0 := by
  show rowArgmin modelC3.Pn (ii_diff labelsC3 modelC3.protoLabels)
    (modelDistances modelC3 dataC1) 0 = 0
  unfold rowArgmin
  rw [show List.range modelC3.Pn = [0, 1] from rfl, List.find?_cons_of_pos]
  · rfl
  · show decide (distTemp (ii_diff labelsC3 modelC3.protoLabels)
      (modelDistances modelC3 dataC1) 0 0 =
        rowMin modelC3.Pn (ii_diff labelsC3 modelC3.protoLabels)
          (modelDistances modelC3 dataC1) 0) = true
    rw [show (modelC3.Pn : ℕ) = 2 from rfl, distTempC3_0, rowMinC3]
    simp

/-- Witness for C3: in the concrete batch above, prototype `1` wins no sample
on either branch, and the gradient buffer entry at its offset (`1 * d + 0 = 1`)
is zero (with identity activation gradient and arbitrary fixed discriminant
strategies). -/
theorem C3_untouched_prototype_slice_zero_witness :
    GeneralizedLearningObjective.gradient (fun x => x) (fun _ _ => 0)
      (fun _ _ _ => 1) modelC3 1 dataC1 labelsC3 1 = 0 := by
  have h := C3_untouched_prototype_slice_zero (fun x => x) (fun _ _ => 0)
    (fun _ _ _ => 1) modelC3 1 dataC1 labelsC3 1 (by norm_num [modelC3])
    (fun j hj => by
      have hj0 : j = 0 := by omega
      subst hj0
      rw [i_dist_same_C3, i_dist_diff_C3]
      norm_num)
    0 (by norm_num [modelC3])
  simpa [modelC3] using h

/-! ## Solver: sklvq/solvers/steepest_gradient_descent.py

The model's parameter codec (`_to_variables` / `_to_params` /
`multiply_model_params` on the `SolverBaseClass`) is not under `src/`; it is
modelled from the spec (§3/§4.1): the flat variable vector is the row-major
concatenation of the prototype matrix and the relevance matrix, and
`scale_and_combine` multiplies each parameter block by the scalar step size.
The objective handed to the solver and the per-run shuffled batches are
parameters of the embedding, exactly as the solver receives them. -/

/-- The structured parameter set `{prototype matrix, relevance matrix}`. -/
structure GMLVQParams where
  prototypes : ℕ → ℕ → ℚ
  omega : ℕ → ℕ → ℚ

/-- Modelled from the spec: `model._to_variables(params)` — row-major
concatenation of the `Pn × d` prototype matrix and the `o × d` relevance
matrix into one flat vector. -/
def to_variables (Pn d : ℕ) (m : GMLVQParams) : ℕ → ℚ := fun c =>
  if c < Pn * d then m.prototypes (c / d) (c % d)
  else m.omega ((c - Pn * d) / d) ((c - Pn * d) % d)

/-- Modelled from the spec: `model._to_params(variables)` — the inverse
reshape using the model-known prototype count and shapes. -/
def to_params (Pn d : ℕ) (v : ℕ → ℚ) : GMLVQParams :=
  ⟨fun p f => v (p * d + f), fun r k => v (Pn * d + (r * d + k))⟩

/-- Modelled from the spec: `multiply_model_params(step_size, params)` —
multiplies each parameter block by the (scalar) step size. -/
def multiply_model_params (s : ℚ) (m : GMLVQParams) : GMLVQParams :=
  ⟨fun p f => s * m.prototypes p f, fun r k => s * m.omega r k⟩

/-- Round trip: flattening the reshaped vector gives the vector back
(pointwise, at every index). -/
lemma to_variables_to_params (Pn d : ℕ) (v : ℕ → ℚ) (c : ℕ) :
    to_variables Pn d (to_params Pn d v) c = v c := by
  unfold to_variables to_params
  by_cases h : c < Pn * d
  · rw [if_pos h]
    show v (c / d * d + c % d) = v c
    rw [Nat.div_add_mod']
  · rw [if_neg h]
    show v (Pn * d + ((c - Pn * d) / d * d + (c - Pn * d) % d)) = v c
    rw [Nat.div_add_mod', Nat.add_sub_cancel' (Nat.not_lt.mp h)]

/-- The annealed step size of run `i`:
`step_size = self.step_size / (1 + i_run / self.max_runs)` (true division). -/
def stepSizeFn (base : ℚ) (maxRuns : ℕ) (i : ℕ) : ℚ :=
  base / (1 + (i : ℚ) / (maxRuns : ℚ))

/-- The scaled objective gradient of one batch, in variables form: the solver
computes `objective.gradient` on the batch at the current flattened variables,
reshapes it to parameter form, applies the step size via
`multiply_model_params`, and flattens again (source lines 102–114). -/
def scaled_gradient {β : Type} (Pn d : ℕ) (g : (ℕ → ℚ) → β → ℕ → ℚ) (s : ℚ)
    (m : GMLVQParams) (b : β) : ℕ → ℚ :=
  to_variables Pn d
    (multiply_model_params s (to_params Pn d (g (to_variables Pn d m) b)))

/-- One batch of the inner loop (source lines 96–122): read the current
variables, subtract the scaled gradient, and commit the result to the model
(`model._set_model_params(model._to_params(new_model_variables))`). -/
def batchStep {β : Type} (Pn d : ℕ) (g : (ℕ → ℚ) → β → ℕ → ℚ) (s : ℚ)
    (m : GMLVQParams) (b : β) : GMLVQParams :=
  to_params Pn d
    (fun c => to_variables Pn d m c - scaled_gradient Pn d g s m b c)

/-- The batches of one run, processed sequentially (each batch reads the model
committed by the previous one). -/
def processBatches {β : Type} (Pn d : ℕ) (g : (ℕ → ℚ) → β → ℕ → ℚ) (s : ℚ)
    (m : GMLVQParams) (bs : List β) : GMLVQParams :=
  bs.foldl (batchStep Pn d g s) m

/-- The batch loop, also tracking the last scaled gradient (the solver's
`objective_gradient` local, reported to the callback as `jac`). -/
def processBatchesJ {β : Type} (Pn d : ℕ) (g : (ℕ → ℚ) → β → ℕ → ℚ) (s : ℚ)
    (mj : GMLVQParams × Option (ℕ → ℚ)) (bs : List β) :
    GMLVQParams × Option (ℕ → ℚ) :=
  bs.foldl (fun mj b => (batchStep Pn d g s mj.1 b, some (scaled_gradient Pn d g s mj.1 b)))
    mj

/-- The state dictionary handed to the callback
(`STATE_KEYS = ["variables", "nit", "fun", "jac", "step_size"]`; keys not
passed to `create_state` are absent/None; the `variables` key is the field
`vars` here, since `variables` is reserved in Lean). -/
structure SolverState where
  vars : ℕ → ℚ
  nit : ℕ
  cost : ℚ
  jac : Option (ℕ → ℚ)
  step_size : Option ℚ

/-- The run loop of `SteepestGradientDescent.solve` (source lines 74–134):
argument 1 is the remaining run budget, argument 2 the current run index
`i_run`; after each full run the registered callback (if any) is invoked with
the current state and may stop training, returning the model as-is. -/
def runLoop {β : Type} (Pn d : ℕ) (g : (ℕ → ℚ) → β → ℕ → ℚ) (e : (ℕ → ℚ) → ℚ)
    (batches : ℕ → List β) (cb : Option (GMLVQParams → SolverState → Bool))
    (base : ℚ) (maxRuns : ℕ) : ℕ → ℕ → GMLVQParams → Option (ℕ → ℚ) → GMLVQParams
  | 0, _, m, _ => m
  | r + 1, i, m, jac0 =>
    let s := stepSizeFn base maxRuns i
    let mj := processBatchesJ Pn d g s (m, jac0) (batches i)
    match cb with
    | none => runLoop Pn d g e batches none base maxRuns r (i + 1) mj.1 mj.2
    | some f =>
      if f mj.1 ⟨to_variables Pn d mj.1, i, e (to_variables Pn d mj.1), mj.2, some s⟩ then
        mj.1
      else runLoop Pn d g e batches (some f) base maxRuns r (i + 1) mj.1 mj.2

/-- `SteepestGradientDescent.solve(data, labels, model)`: optional initial
callback check (source lines 61–70, state `{variables, nit=0, fun}`), then
`max_runs` runs with `objective_gradient` initialised to `None`. -/
def solve {β : Type} (Pn d : ℕ) (g : (ℕ → ℚ) → β → ℕ → ℚ) (e : (ℕ → ℚ) → ℚ)
    (batches : ℕ → List β) (cb : Option (GMLVQParams → SolverState → Bool))
    (base : ℚ) (maxRuns : ℕ) (m : GMLVQParams) : GMLVQParams :=
  match cb with
  | some f =>
    if f m ⟨to_variables Pn d m, 0, e (to_variables Pn d m), none, none⟩ then m
    else runLoop Pn d g e batches (some f) base maxRuns maxRuns 0 m none
  | none => runLoop Pn d g e batches none base maxRuns maxRuns 0 m none

/-- The callback-free reference iteration: run `r` more runs starting at run
index `i`, each processing its shuffled batches with its annealed step size. -/
def iterRuns {β : Type} (Pn d : ℕ) (g : (ℕ → ℚ) → β → ℕ → ℚ)
    (batches : ℕ → List β) (base : ℚ) (maxRuns : ℕ) :
    ℕ → ℕ → GMLVQParams → GMLVQParams
  | 0, _, m => m
  | r + 1, i, m =>
    iterRuns Pn d g batches base maxRuns r (i + 1)
      (processBatches Pn d g (stepSizeFn base maxRuns i) m (batches i))

lemma processBatchesJ_fst {β : Type} (Pn d : ℕ) (g : (ℕ → ℚ) → β → ℕ → ℚ) (s : ℚ) :
    ∀ (bs : List β) (m : GMLVQParams) (j : Option (ℕ → ℚ)),
      (processBatchesJ Pn d g s (m, j) bs).1 = processBatches Pn d g s m bs := by
  intro bs
  induction bs with
  | nil => intro m j; rfl
  | cons b bs ih => intro m j; exact ih (batchStep Pn d g s m b) _

/-- Claim C2: within `SteepestGradientDescent.solve`, (i) the variables
committed by one batch equal the variables read before the batch minus
`to_variables(multiply_model_params(step_size, to_params(objective.gradient)))`;
(ii) the commit happens before the next batch, i.e. the remaining batches of a
run are processed from the updated model; (iii) run `i_run` uses the annealed
step size `step_size / (1 + i_run / max_runs)` for all its batches, and the
next run starts from the model committed by this run's last batch. -/
theorem C2_sgd_batch_update {β : Type} (Pn d : ℕ) (g : (ℕ → ℚ) → β → ℕ → ℚ)
    (e : (ℕ → ℚ) → ℚ) (batches : ℕ → List β) (base : ℚ) (maxRuns : ℕ) :
    (∀ (s : ℚ) (m : GMLVQParams) (b : β) (c : ℕ),
      to_variables Pn d (batchStep Pn d g s m b) c =
        to_variables Pn d m c -
          to_variables Pn d
            (multiply_model_params s (to_params Pn d (g (to_variables Pn d m) b))) c) ∧
    (∀ (s : ℚ) (m : GMLVQParams) (b : β) (bs : List β),
      processBatches Pn d g s m (b :: bs) =
        processBatches Pn d g s (batchStep Pn d g s m b) bs) ∧
    (∀ (r i : ℕ) (m : GMLVQParams) (jac0 : Option (ℕ → ℚ)),
      runLoop Pn d g e batches none base maxRuns (r + 1) i m jac0 =
        runLoop Pn d g e batches none base maxRuns r (i + 1)
          (processBatches Pn d g (base / (1 + (i : ℚ) / (maxRuns : ℚ))) m (batches i))
          (processBatchesJ Pn d g (stepSizeFn base maxRuns i) (m, jac0) (batches i)).2) := by
  refine ⟨fun s m b c => ?_, fun s m b bs => rfl, fun r i m jac0 => ?_⟩
  · unfold batchStep
    rw [to_variables_to_params]
    rfl
  · show (runLoop Pn d g e batches none base maxRuns (r + 1) i m jac0 = _)
    rw [runLoop]
    rw [processBatchesJ_fst]
    rfl

/-- Claim C6: `solve` is a total function (it cannot raise on
non-convergence); it performs at most `max_runs` runs; with no registered
callback it performs exactly `max_runs` runs; a callback that never signals
stop also yields exactly `max_runs` runs; and if the callback signals stop at
the initial check (before the first run) the model is returned as-is. -/
theorem C6_solver_termination {β : Type} (Pn d : ℕ) (g : (ℕ → ℚ) → β → ℕ → ℚ)
    (e : (ℕ → ℚ) → ℚ) (batches : ℕ → List β) (base : ℚ) (maxRuns : ℕ)
    (m : GMLVQParams) :
    (∀ cb, ∃ k, k ≤ maxRuns ∧
      solve Pn d g e batches cb base maxRuns m = iterRuns Pn d g batches base maxRuns k 0 m) ∧
    (solve Pn d g e batches none base maxRuns m =
      iterRuns Pn d g batches base maxRuns maxRuns 0 m) ∧
    (∀ f, (∀ x y, f x y = false) →
      solve Pn d g e batches (some f) base maxRuns m =
        iterRuns Pn d g batches base maxRuns maxRuns 0 m) ∧
    (∀ f, f m ⟨to_variables Pn d m, 0, e (to_variables Pn d m), none, none⟩ = true →
      solve Pn d g e batches (some f) base maxRuns m = m) := by
  have hnone : ∀ (r i : ℕ) (m' : GMLVQParams) (j : Option (ℕ → ℚ)),
      runLoop Pn d g e batches none base maxRuns r i m' j =
        iterRuns Pn d g batches base maxRuns r i m' := by
    intro r
    induction r with
    | zero => intro i m' j; rfl
    | succ r ih =>
      intro i m' j
      rw [runLoop, iterRuns]
      show runLoop Pn d g e batches none base maxRuns r (i + 1)
        (processBatchesJ Pn d g (stepSizeFn base maxRuns i) (m', j) (batches i)).1 _ = _
      rw [processBatchesJ_fst]
      exact ih (i + 1) _ _
  have hfalse : ∀ (f : GMLVQParams → SolverState → Bool), (∀ x y, f x y = false) →
      ∀ (r i : ℕ) (m' : GMLVQParams) (j : Option (ℕ → ℚ)),
      runLoop Pn d g e batches (some f) base maxRuns r i m' j =
        iterRuns Pn d g batches base maxRuns r i m' := by
    intro f hf r
    induction r with
    | zero => intro i m' j; rfl
    | succ r ih =>
      intro i m' j
      rw [runLoop, iterRuns]
      show (if f _ _ = true then _ else _) = _
      rw [hf, if_neg (by simp)]
      show runLoop Pn d g e batches (some f) base maxRuns r (i + 1)
        (processBatchesJ Pn d g (stepSizeFn base maxRuns i) (m', j) (batches i)).1 _ = _
      rw [processBatchesJ_fst]
      exact ih (i + 1) _ _
  have hbound : ∀ (f : GMLVQParams → SolverState → Bool) (r i : ℕ) (m' : GMLVQParams)
      (j : Option (ℕ → ℚ)), ∃ k, k ≤ r ∧
      runLoop Pn d g e batches (some f) base maxRuns r i m' j =
        iterRuns Pn d g batches base maxRuns k i m' := by
    intro f r
    induction r with
    | zero => exact fun i m' j => ⟨0, le_refl 0, rfl⟩
    | succ r ih =>
      intro i m' j
      rw [runLoop]
      by_cases hstop : f (processBatchesJ Pn d g (stepSizeFn base maxRuns i) (m', j)
          (batches i)).1
          ⟨to_variables Pn d (processBatchesJ Pn d g (stepSizeFn base maxRuns i) (m', j)
              (batches i)).1, i,
            e (to_variables Pn d (processBatchesJ Pn d g (stepSizeFn base maxRuns i)
              (m', j) (batches i)).1),
            (processBatchesJ Pn d g (stepSizeFn base maxRuns i) (m', j) (batches i)).2,
            some (stepSizeFn base maxRuns i)⟩ = true
      · refine ⟨1, by omega, ?_⟩
        show (if _ = true then _ else _) = _
        rw [if_pos hstop]
        rw [iterRuns, iterRuns]
        rw [processBatchesJ_fst]
      · obtain ⟨k, hk, he⟩ := ih (i + 1)
          (processBatchesJ Pn d g (stepSizeFn base maxRuns i) (m', j) (batches i)).1
          (processBatchesJ Pn d g (stepSizeFn base maxRuns i) (m', j) (batches i)).2
        refine ⟨k + 1, by omega, ?_⟩
        show (if _ = true then _ else _) = _
        rw [if_neg hstop]
        rw [iterRuns, he, processBatchesJ_fst]
  refine ⟨fun cb => ?_, ?_, fun f hf => ?_, fun f hstop => ?_⟩
  · match cb with
    | none => exact ⟨maxRuns, le_refl _, hnone maxRuns 0 m none⟩
    | some f =>
      by_cases h0 : f m ⟨to_variables Pn d m, 0, e (to_variables Pn d m), none, none⟩ = true
      · refine ⟨0, Nat.zero_le _, ?_⟩
        show (if f m ⟨to_variables Pn d m, 0, e (to_variables Pn d m), none, none⟩ = true
          then m else runLoop Pn d g e batches (some f) base maxRuns maxRuns 0 m none) =
          iterRuns Pn d g batches base maxRuns 0 0 m
        rw [if_pos h0]
        rfl
      · obtain ⟨k, hk, he⟩ := hbound f maxRuns 0 m none
        refine ⟨k, hk, ?_⟩
        show (if f m ⟨to_variables Pn d m, 0, e (to_variables Pn d m), none, none⟩ = true
          then m else runLoop Pn d g e batches (some f) base maxRuns maxRuns 0 m none) =
          iterRuns Pn d g batches base maxRuns k 0 m
        rw [if_neg h0]
        exact he
  · exact hnone maxRuns 0 m none
  · show (if f m ⟨to_variables Pn d m, 0, e (to_variables Pn d m), none, none⟩ = true
      then m else runLoop Pn d g e batches (some f) base maxRuns maxRuns 0 m none) =
      iterRuns Pn d g batches base maxRuns maxRuns 0 m
    rw [hf, if_neg (by simp)]
    exact hfalse f hf maxRuns 0 m none
  · show (if f m ⟨to_variables Pn d m, 0, e (to_variables Pn d m), none, none⟩ = true
      then m else runLoop Pn d g e batches (some f) base maxRuns maxRuns 0 m none) = m
    rw [if_pos hstop]

/-- Witness for C6: with one run, one empty batch list per run, a zero
objective and the all-zero model, the always-stop callback returns the model
as-is and the never-stop callback runs the full budget. -/
theorem C6_solver_termination_witness :
    solve (β := Unit) 1 1 (fun v _ => v) (fun _ => 0) (fun _ => []) (some (fun _ _ => true))
      1 1 ⟨fun _ _ => 0, fun _ _ => 0⟩ = ⟨fun _ _ => 0, fun _ _ => 0⟩ ∧
    solve (β := Unit) 1 1 (fun v _ => v) (fun _ => 0) (fun _ => []) (some (fun _ _ => false))
      1 1 ⟨fun _ _ => 0, fun _ _ => 0⟩ =
      iterRuns (β := Unit) 1 1 (fun v _ => v) (fun _ => []) 1 1 1 0
        ⟨fun _ _ => 0, fun _ _ => 0⟩ := by
  constructor
  · exact (C6_solver_termination (β := Unit) 1 1 (fun v _ => v) (fun _ => 0)
      (fun _ => []) 1 1 ⟨fun _ _ => 0, fun _ _ => 0⟩).2.2.2 (fun _ _ => true) rfl
  · exact (C6_solver_termination (β := Unit) 1 1 (fun v _ => v) (fun _ => 0)
      (fun _ => []) 1 1 ⟨fun _ _ => 0, fun _ _ => 0⟩).2.2.1 (fun _ _ => false)
      (fun _ _ => rfl)

/-! ## Discriminant: relative-distance (claim C7) -/

/-- Modelled from the spec: the relative-distance discriminant's gradient (its
source file is not under `src/`).  Spec §4.4: quotient rule on
`(d_same - d_diff) / (d_same + d_diff)`, giving `2 d_diff / (d_same + d_diff)^2`
for the same branch and `-2 d_same / (d_same + d_diff)^2` for the diff branch,
and it "must fail gracefully (return 0, not NaN/Inf) when d_same + d_diff is
exactly 0" — the zero-denominator case returns `0` (NaN/Inf are not
representable in `ℚ`). -/
def relative_distance_gradient (dSame dDiff : ℚ) (sameBranch : Bool) : ℚ :=
  if dSame + dDiff = 0 then 0
  else if sameBranch then 2 * dDiff / (dSame + dDiff) ^ 2
  else -2 * dSame / (dSame + dDiff) ^ 2

/-- Claim C7: whenever `d_same + d_diff = 0`, the relative-distance
discriminant gradient is exactly `0`, on both the same branch and the diff
branch. -/
theorem C7_degenerate_discriminant_gradient_zero (dSame dDiff : ℚ)
    (h : dSame + dDiff = 0) :
    ∀ br : Bool, relative_distance_gradient dSame dDiff br = 0 := by
  intro br
  unfold relative_distance_gradient
  rw [if_pos h]

/-- Witness for C7 at the degenerate point `d_same = d_diff = 0`. -/
theorem C7_degenerate_discriminant_gradient_zero_witness :
    relative_distance_gradient 0 0 true = 0 ∧
      relative_distance_gradient 0 0 false = 0 :=
  ⟨C7_degenerate_discriminant_gradient_zero 0 0 (by norm_num) true,
    C7_degenerate_discriminant_gradient_zero 0 0 (by norm_num) false⟩

/-! ## Strategy registry: sklvq/solvers/__init__.py (claim C8) -/

/-- The `ALIASES` dictionary of `sklvq/solvers/__init__.py`. -/
def ALIASES : List (String × String) :=
  [("sgd", "steepest-gradient-descent"),
   ("bgd", "steepest-gradient-descent"),
   ("bfgs", "broyden-fletcher-goldfarb-shanno"),
   ("lbfgs", "limited-memory-bfgs"),
   ("adam", "adaptive-moment-estimation")]

/-- `if class_string in ALIASES.keys(): class_string = ALIASES[class_string]`
— an exact (case-sensitive) dictionary lookup. -/
def aliasLookup (s : String) : String :=
  ((ALIASES.find? fun kv => kv.1 = s).map Prod.snd).getD s

/-- The canonical solver class names resolvable by the registry (the concrete
solver modules of the package). -/
def SOLVER_CLASS_NAMES : List String :=
  ["steepest-gradient-descent", "broyden-fletcher-goldfarb-shanno",
   "limited-memory-bfgs", "adaptive-moment-estimation",
   "waypoint-gradient-descent"]

/-- The outcome of a tag resolution: the resolved class (by its canonical
name), the `ValueError("Provided solver_type is invalid.")` raised on a failed
`valid_strings` check, or the registry's own configuration error for an
unknown class string. -/
inductive ResolveResult where
  | ok : String → ResolveResult
  | invalidSolverType : ResolveResult
  | unknownClass : ResolveResult
deriving DecidableEq

/-- ASCII lowercase of one character (`str.lower` on the ASCII tags used
here). -/
def lowerChar (c : Char) : Char :=
  if 65 ≤ c.toNat ∧ c.toNat ≤ 90 then Char.ofNat (c.toNat + 32) else c

/-- ASCII lowercase of a string. -/
def lowerString (s : String) : String :=
  ⟨s.data.map lowerChar⟩

/-- Modelled from the spec: `_import_class_from_string` of `sklvq/_utils.py`
(not under `src/`) — the name→constructor registry, which per spec §6 resolves
a case-insensitive tag to the concrete class and fails with a configuration
error for an unknown tag.  The resolved class is represented by its canonical
(lowercase) name. -/
def import_class_from_string (s : String) : ResolveResult :=
  if SOLVER_CLASS_NAMES.contains (lowerString s) then ResolveResult.ok (lowerString s)
  else ResolveResult.unknownClass

/-- `import_from_string(class_string, valid_strings)` of
`sklvq/solvers/__init__.py`: alias substitution (case-sensitive dict lookup),
the optional `valid_strings` membership check
(`raise ValueError("Provided solver_type is invalid.")`), then
`_import_class_from_string`. -/
def import_from_string (s : String) (valid : Option (List String)) : ResolveResult :=
  match valid with
  | some vs =>
    if vs.contains (aliasLookup s) then import_class_from_string (aliasLookup s)
    else ResolveResult.invalidSolverType
  | none => import_class_from_string (aliasLookup s)

/-- Counterexample to C8's case-insensitivity: the alias lookup of
`import_from_string` is an exact dictionary lookup, so `"sgd"` resolves to the
steepest-gradient-descent solver while `"SGD"` (which per the claim should
resolve identically) fails with a configuration error — even though the
registry itself (modelled from the spec) resolves canonical names
case-insensitively. -/
theorem C8_case_insensitivity_counterexample :
    import_from_string "SGD" none = ResolveResult.unknownClass ∧
      import_from_string "sgd" none = ResolveResult.ok "steepest-gradient-descent" := by
  constructor <;> decide

/-- Claim C8 (amended): solver tag resolution substitutes aliases through the
fixed table by exact (case-sensitive) match — in particular
`"sgd" → "steepest-gradient-descent"`, `"lbfgs" → "limited-memory-bfgs"` and
`"adam" → "adaptive-moment-estimation"` resolve; canonical class names resolve
case-insensitively (behaviour of the spec-modelled registry); and every tag
that is neither a known class name (up to case) nor an exact alias key fails
with a configuration error (a `ValueError` when a `valid_strings` list is
supplied and misses it, the registry's error otherwise) — never a silent
default. -/
theorem C8_registry_resolution :
    (import_from_string "sgd" none = ResolveResult.ok "steepest-gradient-descent" ∧
      import_from_string "lbfgs" none = ResolveResult.ok "limited-memory-bfgs" ∧
      import_from_string "adam" none = ResolveResult.ok "adaptive-moment-estimation") ∧
    (∀ s : String, SOLVER_CLASS_NAMES.contains (lowerString s) = true →
      aliasLookup s = s →
      import_from_string s none = ResolveResult.ok (lowerString s)) ∧
    (∀ s : String, aliasLookup s = s →
      SOLVER_CLASS_NAMES.contains (lowerString s) = false →
      import_from_string s none = ResolveResult.unknownClass) ∧
    (∀ (s : String) (vs : List String), vs.contains (aliasLookup s) = false →
      import_from_string s (some vs) = ResolveResult.invalidSolverType) := by
  refine ⟨⟨by decide, by decide, by decide⟩, fun s hs ha => ?_, fun s ha hs => ?_,
    fun s vs hvs => ?_⟩
  · show import_class_from_string (aliasLookup s) = ResolveResult.ok (lowerString s)
    rw [ha]
    unfold import_class_from_string
    rw [hs]
    rfl
  · show import_class_from_string (aliasLookup s) = ResolveResult.unknownClass
    rw [ha]
    unfold import_class_from_string
    rw [hs]
    rfl
  · show (if vs.contains (aliasLookup s) = true then
        import_class_from_string (aliasLookup s)
      else ResolveResult.invalidSolverType) = ResolveResult.invalidSolverType
    rw [hvs]
    rfl

/-- Witness for C8 (amended): a canonical name in unusual case resolves
case-insensitively; an unknown tag errors; an alias missing from a supplied
`valid_strings` list raises the invalid-solver-type error. -/
theorem C8_registry_resolution_witness :
    import_from_string "Steepest-Gradient-Descent" none =
      ResolveResult.ok "steepest-gradient-descent" ∧
    import_from_string "newton" none = ResolveResult.unknownClass ∧
    import_from_string "sgd" (some ["limited-memory-bfgs"]) =
      ResolveResult.invalidSolverType := by
  refine ⟨(C8_registry_resolution.2.1 "Steepest-Gradient-Descent" (by decide)
      (by decide)).trans (by decide),
    C8_registry_resolution.2.2.1 "newton" (by decide) (by decide),
    C8_registry_resolution.2.2.2 "sgd" ["limited-memory-bfgs"] (by decide)⟩

/-! ## Frame effects (claim C9): a heap model of the numpy arrays

The masking statements `difference[np.isnan(difference)] = 0` are in-place
writes.  To prove they never touch the caller's arrays, the distance and
objective computations are re-traced over an explicit heap of 2-D arrays:
numpy binary operations (`data - prototype`, `-2 * (...)`) allocate a fresh
array, the masking writes that fresh array in place, `np.zeros` allocates,
slice assignment writes the freshly allocated buffer, and boolean-mask fancy
indexing (`data[mask, :]`) copies into a fresh array.  Arithmetic on array
values is NaN-propagating (`none` = NaN). -/

/-- A heap of 2-D arrays: `cell r a b` is entry `(a, b)` of the array with
reference `r`; references `≥ size` are unallocated. -/
structure NpHeap where
  size : ℕ
  cell : ℕ → ℕ → ℕ → Option ℚ

/-- Allocate a fresh array, returning its reference. -/
def NpHeap.alloc (h : NpHeap) (a : ℕ → ℕ → Option ℚ) : ℕ × NpHeap :=
  (h.size, ⟨h.size + 1, fun r => if r = h.size then a else h.cell r⟩)

/-- Overwrite the array at reference `t` in place. -/
def NpHeap.write (h : NpHeap) (t : ℕ) (a : ℕ → ℕ → Option ℚ) : NpHeap :=
  ⟨h.size, fun r => if r = t then a else h.cell r⟩

/-- `h'` extends `h` without modifying any array allocated in `h`. -/
def Frames (h h' : NpHeap) : Prop :=
  h.size ≤ h'.size ∧ ∀ r, r < h.size → ∀ a b, h'.cell r a b = h.cell r a b

lemma frames_refl (h : NpHeap) : Frames h h :=
  ⟨le_refl _, fun _ _ _ _ => rfl⟩

lemma frames_trans {h1 h2 h3 : NpHeap} (f12 : Frames h1 h2) (f23 : Frames h2 h3) :
    Frames h1 h3 :=
  ⟨le_trans f12.1 f23.1, fun r hr a b =>
    (f23.2 r (lt_of_lt_of_le hr f12.1) a b).trans (f12.2 r hr a b)⟩

lemma frames_alloc (h : NpHeap) (a : ℕ → ℕ → Option ℚ) : Frames h (h.alloc a).2 :=
  ⟨Nat.le_succ _, fun r hr _ _ => by
    show (if r = h.size then a else h.cell r) _ _ = _
    rw [if_neg (Nat.ne_of_lt hr)]⟩

lemma frames_write {h0 h : NpHeap} (hf : Frames h0 h) (t : ℕ) (ht : h0.size ≤ t)
    (a : ℕ → ℕ → Option ℚ) : Frames h0 (h.write t a) :=
  ⟨hf.1, fun r hr x y => by
    show (if r = t then a else h.cell r) x y = _
    rw [if_neg (Nat.ne_of_lt (lt_of_lt_of_le hr ht))]
    exact hf.2 r hr x y⟩

/-- NaN-propagating subtraction on array values. -/
def nanSub : Option ℚ → Option ℚ → Option ℚ
  | some a, some b => some (a - b)
  | _, _ => none

/-- NaN-propagating multiplication on array values. -/
def nanMul : Option ℚ → Option ℚ → Option ℚ
  | some a, some b => some (a * b)
  | _, _ => none

/-- NaN-propagating addition on array values. -/
def nanAdd : Option ℚ → Option ℚ → Option ℚ
  | some a, some b => some (a + b)
  | _, _ => none

/-- NaN-propagating sum (any NaN term poisons the sum, as in float
arithmetic). -/
def nanSum (s : Finset ℕ) (f : ℕ → Option ℚ) : Option ℚ :=
  if ∀ i ∈ s, (f i).isSome = true then some (∑ i ∈ s, (f i).getD 0) else none

/-- `Λ = ΩᵀΩ` read from the heap (`np.dot` allocates only a fresh result
array, so the value suffices for the frame analysis). -/
def lambdaFromHeap (h : NpHeap) (omegaRef o : ℕ) (i k : ℕ) : Option ℚ :=
  nanSum (Finset.range o) fun r => nanMul (h.cell omegaRef r i) (h.cell omegaRef r k)

/-- `_adaptive_squared_nan_euclidean(sample, prototype, lambda_matrix)` over
the heap: `sample` is row `sRow` of the array `sRef` (a numpy row view),
`prototype` is row `pRow` of `pRef`; `difference = sample - prototype`
allocates, the NaN masking writes the fresh array in place, and the
`dot` chain is a pure read. -/
def nanMetricST (h : NpHeap) (sRef sRow pRef pRow : ℕ) (lam : ℕ → ℕ → Option ℚ)
    (d : ℕ) : Option ℚ × NpHeap :=
  let al := h.alloc fun _ i => nanSub (h.cell sRef sRow i) (h.cell pRef pRow i)
  let h2 := al.2.write al.1 fun z i => some ((al.2.cell al.1 z i).getD 0)
  (nanSum (Finset.range d) fun k =>
    nanMul (nanSum (Finset.range d) fun i => nanMul (h2.cell al.1 0 i) (lam i k))
      (h2.cell al.1 0 k), h2)

/-- `pairwise_distances(data, prototypes, metric=..., force_all_finite="allow-nan")`:
the callable metric is invoked per (sample, prototype) pair, threading the
heap. -/
def pairwiseCallST (h : NpHeap) (dataRef protoRef : ℕ) (lam : ℕ → ℕ → Option ℚ)
    (n Pn d : ℕ) : (ℕ → ℕ → Option ℚ) × NpHeap :=
  (List.range n).foldl (fun acc j =>
    (List.range Pn).foldl (fun acc2 p =>
      let r := nanMetricST acc2.2 dataRef j protoRef p lam d
      (fun j' p' => if j' = j ∧ p' = p then r.1 else acc2.1 j' p', r.2)) acc)
    (fun _ _ => none, h)

/-- `AdaptiveSquaredNanEuclidean.__call__` over the heap: the pairwise metric
matrix, squared elementwise (`** 2`). -/
def adaptiveCallST (h : NpHeap) (dataRef protoRef omegaRef : ℕ) (n Pn d o : ℕ) :
    (ℕ → ℕ → Option ℚ) × NpHeap :=
  let pc := pairwiseCallST h dataRef protoRef (lambdaFromHeap h omegaRef o) n Pn d
  (fun j p => nanMul (pc.1 j p) (pc.1 j p), pc.2)

/-- `_prototype_gradient(data, prototypes[ip, :], omega)` over the heap:
`difference = -2 * (data - prototype)` allocates, the masking writes it in
place, the einsum with `ΩᵀΩ` is a pure read.  The prototype argument is a row
view of the prototype array (`pRef`, row `pRow`). -/
def prototypeGradientST (h : NpHeap) (dataRef pRef pRow omegaRef : ℕ) (d o : ℕ) :
    (ℕ → ℕ → Option ℚ) × NpHeap :=
  let al := h.alloc fun j i =>
    nanMul (some (-2)) (nanSub (h.cell dataRef j i) (h.cell pRef pRow i))
  let h2 := al.2.write al.1 fun j i => some ((al.2.cell al.1 j i).getD 0)
  (fun j k => nanSum (Finset.range d) fun i =>
    nanMul (h2.cell al.1 j i) (lambdaFromHeap h2 omegaRef o i k), h2)

/-- `_omega_gradient(data, prototypes[ip, :], omega)` over the heap:
`difference = data - prototype` allocates, the masking writes it in place,
`scaled_omega` and the einsum are pure reads; entry `(j, r, k)` is
`(Ω (x_j - w))[r] * (2 (x_j - w)[k])`. -/
def omegaGradientST (h : NpHeap) (dataRef pRef pRow omegaRef : ℕ) (d : ℕ) :
    (ℕ → ℕ → ℕ → Option ℚ) × NpHeap :=
  let al := h.alloc fun j i => nanSub (h.cell dataRef j i) (h.cell pRef pRow i)
  let h2 := al.2.write al.1 fun j i => some ((al.2.cell al.1 j i).getD 0)
  (fun j r k =>
    nanMul (nanSum (Finset.range d) fun l =>
        nanMul (h2.cell omegaRef r l) (h2.cell al.1 j l))
      (nanMul (some 2) (h2.cell al.1 j k)), h2)

/-- `AdaptiveSquaredNanEuclidean.gradient(data, model, ip)` over the heap:
allocates `distance_gradient = np.zeros(...)`, writes the prototype slice and
the trailing Ω slice of that fresh buffer, and returns its contents. -/
def adaptiveGradientST (h : NpHeap) (dataRef protoRef omegaRef : ℕ)
    (ip d Pn o : ℕ) : (ℕ → ℕ → Option ℚ) × NpHeap :=
  let zb := h.alloc fun _ _ => some 0
  let pg := prototypeGradientST zb.2 dataRef protoRef ip omegaRef d o
  let h3 := pg.2.write zb.1 fun j c =>
    if ip * d ≤ c ∧ c < ip * d + d then pg.1 j (c - ip * d) else pg.2.cell zb.1 j c
  let og := omegaGradientST h3 dataRef protoRef ip omegaRef d
  let h5 := og.2.write zb.1 fun j c =>
    if Pn * d ≤ c then og.1 j ((c - Pn * d) / d) ((c - Pn * d) % d)
    else og.2.cell zb.1 j c
  (h5.cell zb.1, h5)

/-- `GeneralizedLearningObjective.__call__` over the heap: the only heap
effects are inside the distance matrix computation; winner selection
(`np.where` / `min` / `argmin`) and the cost sum allocate fresh arrays and
read.  Labels are row 0 of `labelsRef` (sample labels) and of `plRef`
(prototype labels); model parameters and labels are NaN-free in a valid
model, so distance values are read back with their rational content. -/
def objectiveEvaluateST (h : NpHeap) (dataRef labelsRef protoRef plRef omegaRef : ℕ)
    (n Pn d o : ℕ) (actF : ℚ → ℚ) (discF : WithTop ℚ → WithTop ℚ → ℚ) :
    ℚ × NpHeap :=
  let dc := adaptiveCallST h dataRef protoRef omegaRef n Pn d o
  let distances := fun j p => (dc.1 j p).getD 0
  let iiS := fun j p => decide (h.cell labelsRef 0 j = h.cell plRef 0 p)
  let iiD := fun j p => !(iiS j p)
  (∑ j ∈ Finset.range n,
    actF (discF (rowMin Pn iiS distances j) (rowMin Pn iiD distances j)), dc.2)

/-- `(List.range n).filter mask`: the original sample indices selected by a
boolean winner mask, in order. -/
def maskIndices (mask : ℕ → Bool) (n : ℕ) : List ℕ :=
  (List.range n).filter mask

/-- One `if any(mask): model.add_partial_gradient(...)` branch of the
objective's prototype loop, over the heap: `data[mask, :]` copies the selected
rows into a fresh array, the distance strategy's `gradient` runs on that copy,
and the weighted contribution is accumulated into the gradient buffer
(`bufRef`) in place. -/
def gradientBranchST (st : NpHeap) (bufRef dataRef protoRef omegaRef : ℕ)
    (idxs : List ℕ) (w : ℕ → ℚ) (ip d Pn o : ℕ) : NpHeap :=
  if idxs.isEmpty then st
  else
    let cp := st.alloc fun jj i => st.cell dataRef (idxs.getD jj 0) i
    let dg := adaptiveGradientST cp.2 cp.1 protoRef omegaRef ip d Pn o
    dg.2.write bufRef fun z c =>
      nanAdd (dg.2.cell bufRef z c)
        (nanSum (Finset.range idxs.length) fun jj =>
          nanMul (some (w (idxs.getD jj 0))) (dg.1 jj c))

/-- `GeneralizedLearningObjective.gradient` over the heap: the distance
matrix, winner selection, a fresh `gradient_buffer = np.zeros(...)`, then the
prototype loop with the same-branch and diff-branch accumulations; returns the
buffer contents (row 0). -/
def objectiveGradientST (h : NpHeap) (dataRef labelsRef protoRef plRef omegaRef : ℕ)
    (n Pn d o : ℕ) (actGradF : ℚ → ℚ) (discF : WithTop ℚ → WithTop ℚ → ℚ)
    (discGradF : WithTop ℚ → WithTop ℚ → Bool → ℚ) : (ℕ → Option ℚ) × NpHeap :=
  let dc := adaptiveCallST h dataRef protoRef omegaRef n Pn d o
  let distances := fun j p => (dc.1 j p).getD 0
  let iiS := fun j p => decide (h.cell labelsRef 0 j = h.cell plRef 0 p)
  let iiD := fun j p => !(iiS j p)
  let dS := rowMin Pn iiS distances
  let dD := rowMin Pn iiD distances
  let iS := rowArgmin Pn iiS distances
  let iD := rowArgmin Pn iiD distances
  let score := fun j => discF (dS j) (dD j)
  let zb := dc.2.alloc fun _ _ => some 0
  let final := (List.range Pn).foldl (fun st ip =>
    gradientBranchST
      (gradientBranchST st zb.1 dataRef protoRef omegaRef
        (maskIndices (fun j => iS j == ip) n)
        (fun j => actGradF (score j) * discGradF (dS j) (dD j) true) ip d Pn o)
      zb.1 dataRef protoRef omegaRef
      (maskIndices (fun j => iD j == ip) n)
      (fun j => actGradF (score j) * discGradF (dS j) (dD j) false) ip d Pn o)
    zb.2
  (fun c => final.cell zb.1 0 c, final)

lemma frames_nanMetricST (h : NpHeap) (sRef sRow pRef pRow : ℕ)
    (lam : ℕ → ℕ → Option ℚ) (d : ℕ) :
    Frames h (nanMetricST h sRef sRow pRef pRow lam d).2 :=
  frames_write (frames_alloc h _) _ (le_refl _) _

lemma frames_pairwiseCallST (h : NpHeap) (dataRef protoRef : ℕ)
    (lam : ℕ → ℕ → Option ℚ) (n Pn d : ℕ) :
    Frames h (pairwiseCallST h dataRef protoRef lam n Pn d).2 := by
  unfold pairwiseCallST
  refine foldl_preserve (fun acc : (ℕ → ℕ → Option ℚ) × NpHeap => Frames h acc.2) _ ?_
    _ _ (frames_refl h)
  intro acc j hacc
  refine foldl_preserve (fun acc2 : (ℕ → ℕ → Option ℚ) × NpHeap => Frames h acc2.2) _ ?_
    _ _ hacc
  intro acc2 p hacc2
  exact frames_trans hacc2 (frames_nanMetricST acc2.2 dataRef j protoRef p lam d)

lemma frames_adaptiveCallST (h : NpHeap) (dataRef protoRef omegaRef : ℕ)
    (n Pn d o : ℕ) :
    Frames h (adaptiveCallST h dataRef protoRef omegaRef n Pn d o).2 :=
  frames_pairwiseCallST h dataRef protoRef _ n Pn d

lemma frames_prototypeGradientST (h : NpHeap) (dataRef pRef pRow omegaRef : ℕ)
    (d o : ℕ) :
    Frames h (prototypeGradientST h dataRef pRef pRow omegaRef d o).2 :=
  frames_write (frames_alloc h _) _ (le_refl _) _

lemma frames_omegaGradientST (h : NpHeap) (dataRef pRef pRow omegaRef : ℕ) (d : ℕ) :
    Frames h (omegaGradientST h dataRef pRef pRow omegaRef d).2 :=
  frames_write (frames_alloc h _) _ (le_refl _) _

lemma frames_adaptiveGradientST (h : NpHeap) (dataRef protoRef omegaRef : ℕ)
    (ip d Pn o : ℕ) :
    Frames h (adaptiveGradientST h dataRef protoRef omegaRef ip d Pn o).2 := by
  unfold adaptiveGradientST
  refine frames_write (frames_trans ?_ (frames_omegaGradientST _ dataRef protoRef ip
    omegaRef d)) _ (le_refl _) _
  exact frames_write (frames_trans (frames_alloc h _)
    (frames_prototypeGradientST _ dataRef protoRef ip omegaRef d o)) _ (le_refl _) _

lemma frames_objectiveEvaluateST (h : NpHeap)
    (dataRef labelsRef protoRef plRef omegaRef : ℕ) (n Pn d o : ℕ)
    (actF : ℚ → ℚ) (discF : WithTop ℚ → WithTop ℚ → ℚ) :
    Frames h (objectiveEvaluateST h dataRef labelsRef protoRef plRef omegaRef
      n Pn d o actF discF).2 :=
  frames_adaptiveCallST h dataRef protoRef omegaRef n Pn d o

lemma frames_gradientBranchST {h0 st : NpHeap} (hf : Frames h0 st)
    (bufRef dataRef protoRef omegaRef : ℕ) (hbuf : h0.size ≤ bufRef)
    (idxs : List ℕ) (w : ℕ → ℚ) (ip d Pn o : ℕ) :
    Frames h0 (gradientBranchST st bufRef dataRef protoRef omegaRef idxs w ip d Pn o) := by
  unfold gradientBranchST
  by_cases he : idxs.isEmpty
  · rw [if_pos he]
    exact hf
  · rw [if_neg he]
    refine frames_write ?_ _ hbuf _
    exact frames_trans (frames_trans hf (frames_alloc st _))
      (frames_adaptiveGradientST _ _ protoRef omegaRef ip d Pn o)

lemma frames_objectiveGradientST (h : NpHeap)
    (dataRef labelsRef protoRef plRef omegaRef : ℕ) (n Pn d o : ℕ)
    (actGradF : ℚ → ℚ) (discF : WithTop ℚ → WithTop ℚ → ℚ)
    (discGradF : WithTop ℚ → WithTop ℚ → Bool → ℚ) :
    Frames h (objectiveGradientST h dataRef labelsRef protoRef plRef omegaRef
      n Pn d o actGradF discF discGradF).2 := by
  unfold objectiveGradientST
  have hdc := frames_adaptiveCallST h dataRef protoRef omegaRef n Pn d o
  have hzb : Frames h ((adaptiveCallST h dataRef protoRef omegaRef n Pn d o).2.alloc
      (fun _ _ => some 0)).2 :=
    frames_trans hdc (frames_alloc _ _)
  have hbuf : h.size ≤ ((adaptiveCallST h dataRef protoRef omegaRef n Pn d o).2.alloc
      (fun _ _ => some 0)).1 :=
    hdc.1
  refine foldl_preserve (fun st => Frames h st) _ ?_ _ _ hzb
  intro st ip hst
  exact frames_gradientBranchST
    (frames_gradientBranchST hst _ dataRef protoRef omegaRef hbuf _ _ ip d Pn o)
    _ dataRef protoRef omegaRef hbuf _ _ ip d Pn o

/-- Claim C9: the distance strategy's distance (`__call__`) and `gradient`
computations — including their helpers — and the objective's evaluate
(`__call__`) and `gradient` never modify a previously allocated array: the
sample batch, the label sequences and the model's `prototypes_` and `omega_`
are left unchanged; NaN masking writes only the freshly allocated difference
arrays, slice assignment and accumulation write only the freshly allocated
gradient buffers. -/
theorem C9_no_mutation_of_inputs (h : NpHeap)
    (dataRef labelsRef protoRef plRef omegaRef sRow pRow ip n Pn d o : ℕ)
    (lam : ℕ → ℕ → Option ℚ) (actF actGradF : ℚ → ℚ)
    (discF : WithTop ℚ → WithTop ℚ → ℚ)
    (discGradF : WithTop ℚ → WithTop ℚ → Bool → ℚ) :
    Frames h (nanMetricST h dataRef sRow protoRef pRow lam d).2 ∧
    Frames h (adaptiveCallST h dataRef protoRef omegaRef n Pn d o).2 ∧
    Frames h (prototypeGradientST h dataRef protoRef pRow omegaRef d o).2 ∧
    Frames h (omegaGradientST h dataRef protoRef pRow omegaRef d).2 ∧
    Frames h (adaptiveGradientST h dataRef protoRef omegaRef ip d Pn o).2 ∧
    Frames h (objectiveEvaluateST h dataRef labelsRef protoRef plRef omegaRef
      n Pn d o actF discF).2 ∧
    Frames h (objectiveGradientST h dataRef labelsRef protoRef plRef omegaRef
      n Pn d o actGradF discF discGradF).2 :=
  ⟨frames_nanMetricST h dataRef sRow protoRef pRow lam d,
    frames_adaptiveCallST h dataRef protoRef omegaRef n Pn d o,
    frames_prototypeGradientST h dataRef protoRef pRow omegaRef d o,
    frames_omegaGradientST h dataRef protoRef pRow omegaRef d,
    frames_adaptiveGradientST h dataRef protoRef omegaRef ip d Pn o,
    frames_objectiveEvaluateST h dataRef labelsRef protoRef plRef omegaRef n Pn d o
      actF discF,
    frames_objectiveGradientST h dataRef labelsRef protoRef plRef omegaRef n Pn d o
      actGradF discF discGradF⟩

/-- A concrete 5-array heap (data, labels, prototypes, prototype labels,
omega), every entry `5`. -/
def heapC9 : NpHeap :=
  ⟨5, fun _ _ _ => some 5⟩

/-- Witness for C9: on a concrete heap, a data entry (array 0) and an omega
entry (array 4) are unchanged after a full objective gradient computation, and
a prototype entry (array 2) is unchanged after the distance strategy's
gradient. -/
theorem C9_no_mutation_of_inputs_witness :
    ((objectiveGradientST heapC9 0 1 2 3 4 2 2 2 2 (fun x => x) (fun _ _ => 0)
        (fun _ _ _ => 1)).2).cell 0 1 1 = some 5 ∧
    ((objectiveGradientST heapC9 0 1 2 3 4 2 2 2 2 (fun x => x) (fun _ _ => 0)
        (fun _ _ _ => 1)).2).cell 4 0 0 = some 5 ∧
    ((adaptiveGradientST heapC9 0 2 4 0 2 2 2).2).cell 2 0 0 = some 5 := by
  have h := C9_no_mutation_of_inputs heapC9 0 1 2 3 4 0 0 0 2 2 2 2 (fun _ _ => some 1)
    (fun x => x) (fun x => x) (fun _ _ => 0) (fun _ _ _ => 1)
  refine ⟨?_, ?_, ?_⟩
  · rw [(h.2.2.2.2.2.2).2 0 (by norm_num [heapC9]) 1 1]
    rfl
  · rw [(h.2.2.2.2.2.2).2 4 (by norm_num [heapC9]) 0 0]
    rfl
  · rw [(h.2.2.2.2.1).2 2 (by norm_num [heapC9]) 0 0]
    rfl

end Sklvq
